import Mathlib

/-!
Verification of the `object_tracker` node of `hector_worldmodel`
(`src/hector_worldmodel/object_tracker/src/object_tracker.cpp`).

The embedding below translates the tracker's data model and callbacks into
exact-arithmetic Lean definitions: machine floats become `ℚ`, Eigen's
fixed-size vectors and matrices become `Vec3`/`Mat3` with the explicit
cofactor formulas Eigen uses for 3x3 inverses, ROS messages become plain
structures, and the external collaborators (tf lookups, the ranging service,
verification services) are passed in as already-resolved values, `none`
standing for a failed call.  Trigonometric constructions (the Euler-angle
quaternion constructor and vector normalization, which need `sin`/`cos` and
square roots) are taken as function parameters, so every theorem holds for
all possible values of those functions.

The classes `Object` / `ObjectModel` (from `Object.h`) are not among the
sources; the store and the per-object mutators are modelled from the
specification, and each such definition is marked `Modelled from the spec:`
in its doc comment.
-/

namespace WorldModel

/-! ## Vectors, matrices and quaternions (exact-arithmetic Eigen/tf embedding) -/

/-- A 3-vector over `ℚ`, standing for `Eigen::Vector3f` / `tf::Vector3`. -/
structure Vec3 where
  x : ℚ
  y : ℚ
  z : ℚ
deriving DecidableEq

/-- Componentwise addition. -/
def Vec3.add (a b : Vec3) : Vec3 := ⟨a.x + b.x, a.y + b.y, a.z + b.z⟩

/-- Componentwise subtraction. -/
def Vec3.sub (a b : Vec3) : Vec3 := ⟨a.x - b.x, a.y - b.y, a.z - b.z⟩

instance : Add Vec3 := ⟨Vec3.add⟩

instance : Sub Vec3 := ⟨Vec3.sub⟩

/-- The zero vector. -/
def Vec3.zero : Vec3 := ⟨0, 0, 0⟩

/-- Componentwise scaling, `v * c` on a `tf::Vector3`. -/
def Vec3.smul (c : ℚ) (v : Vec3) : Vec3 := ⟨c * v.x, c * v.y, c * v.z⟩

/-- Dot product. -/
def Vec3.dot (a b : Vec3) : ℚ := a.x * b.x + a.y * b.y + a.z * b.z

/-- Squared Euclidean norm; the source keeps `distance = length()` and only
    ever uses its square (`distance*distance`), which is rational. -/
def Vec3.normSq (v : Vec3) : ℚ := v.x * v.x + v.y * v.y + v.z * v.z

/-- A 3x3 matrix over `ℚ`, standing for `Eigen::Matrix3f`. -/
structure Mat3 where
  a00 : ℚ
  a01 : ℚ
  a02 : ℚ
  a10 : ℚ
  a11 : ℚ
  a12 : ℚ
  a20 : ℚ
  a21 : ℚ
  a22 : ℚ
deriving DecidableEq

/-- The zero matrix; `Eigen::Matrix3f::isZero` becomes equality with it. -/
def Mat3.zero : Mat3 := ⟨0, 0, 0, 0, 0, 0, 0, 0, 0⟩

/-- The identity matrix. -/
def Mat3.identity : Mat3 := ⟨1, 0, 0, 0, 1, 0, 0, 0, 1⟩

/-- Componentwise matrix addition. -/
def Mat3.add (a b : Mat3) : Mat3 :=
  ⟨a.a00 + b.a00, a.a01 + b.a01, a.a02 + b.a02,
   a.a10 + b.a10, a.a11 + b.a11, a.a12 + b.a12,
   a.a20 + b.a20, a.a21 + b.a21, a.a22 + b.a22⟩

/-- Matrix product. -/
def Mat3.mul (a b : Mat3) : Mat3 :=
  ⟨a.a00 * b.a00 + a.a01 * b.a10 + a.a02 * b.a20,
   a.a00 * b.a01 + a.a01 * b.a11 + a.a02 * b.a21,
   a.a00 * b.a02 + a.a01 * b.a12 + a.a02 * b.a22,
   a.a10 * b.a00 + a.a11 * b.a10 + a.a12 * b.a20,
   a.a10 * b.a01 + a.a11 * b.a11 + a.a12 * b.a21,
   a.a10 * b.a02 + a.a11 * b.a12 + a.a12 * b.a22,
   a.a20 * b.a00 + a.a21 * b.a10 + a.a22 * b.a20,
   a.a20 * b.a01 + a.a21 * b.a11 + a.a22 * b.a21,
   a.a20 * b.a02 + a.a21 * b.a12 + a.a22 * b.a22⟩

instance : Add Mat3 := ⟨Mat3.add⟩

instance : Mul Mat3 := ⟨Mat3.mul⟩

/-- Matrix transpose. -/
def Mat3.transpose (m : Mat3) : Mat3 :=
  ⟨m.a00, m.a10, m.a20, m.a01, m.a11, m.a21, m.a02, m.a12, m.a22⟩

/-- Matrix-vector product. -/
def Mat3.mulVec (m : Mat3) (v : Vec3) : Vec3 :=
  ⟨m.a00 * v.x + m.a01 * v.y + m.a02 * v.z,
   m.a10 * v.x + m.a11 * v.y + m.a12 * v.z,
   m.a20 * v.x + m.a21 * v.y + m.a22 * v.z⟩

/-- Determinant by cofactor expansion, as Eigen computes it for 3x3. -/
def Mat3.det (m : Mat3) : ℚ :=
  m.a00 * (m.a11 * m.a22 - m.a12 * m.a21)
    - m.a01 * (m.a10 * m.a22 - m.a12 * m.a20)
    + m.a02 * (m.a10 * m.a21 - m.a11 * m.a20)

/-- Adjugate (transposed cofactor matrix). -/
def Mat3.adjugate (m : Mat3) : Mat3 :=
  ⟨m.a11 * m.a22 - m.a12 * m.a21,
   -(m.a01 * m.a22 - m.a02 * m.a21),
   m.a01 * m.a12 - m.a02 * m.a11,
   -(m.a10 * m.a22 - m.a12 * m.a20),
   m.a00 * m.a22 - m.a02 * m.a20,
   -(m.a00 * m.a12 - m.a02 * m.a10),
   m.a10 * m.a21 - m.a11 * m.a20,
   -(m.a00 * m.a21 - m.a01 * m.a20),
   m.a00 * m.a11 - m.a01 * m.a10⟩

/-- Scalar multiple of a matrix. -/
def Mat3.smul (c : ℚ) (m : Mat3) : Mat3 :=
  ⟨c * m.a00, c * m.a01, c * m.a02, c * m.a10, c * m.a11, c * m.a12,
   c * m.a20, c * m.a21, c * m.a22⟩

/-- `Eigen::Matrix3f::inverse()`: adjugate over determinant.  (For a singular
    matrix the float source produces non-finite entries; in `ℚ` the rational
    convention `0⁻¹ = 0` applies instead.) -/
def Mat3.inv (m : Mat3) : Mat3 := Mat3.smul m.det⁻¹ m.adjugate

/-- A quaternion over `ℚ`, standing for `tf::Quaternion`. -/
structure Quat where
  w : ℚ
  x : ℚ
  y : ℚ
  z : ℚ
deriving DecidableEq

/-- The identity quaternion. -/
def Quat.one : Quat := ⟨1, 0, 0, 0⟩

/-- Hamilton product, `tf` quaternion composition. -/
def Quat.mul (a b : Quat) : Quat :=
  ⟨a.w * b.w - a.x * b.x - a.y * b.y - a.z * b.z,
   a.w * b.x + a.x * b.w + a.y * b.z - a.z * b.y,
   a.w * b.y - a.x * b.z + a.y * b.w + a.z * b.x,
   a.w * b.z + a.x * b.y - a.y * b.x + a.z * b.w⟩

/-- Rotation matrix of a unit quaternion (the polynomial formula used by
    `Eigen::Quaternionf::matrix()` and `tf::Matrix3x3`). -/
def Quat.toMatrix (q : Quat) : Mat3 :=
  ⟨1 - 2 * (q.y * q.y + q.z * q.z), 2 * (q.x * q.y - q.z * q.w), 2 * (q.x * q.z + q.y * q.w),
   2 * (q.x * q.y + q.z * q.w), 1 - 2 * (q.x * q.x + q.z * q.z), 2 * (q.y * q.z - q.x * q.w),
   2 * (q.x * q.z - q.y * q.w), 2 * (q.y * q.z + q.x * q.w), 1 - 2 * (q.x * q.x + q.y * q.y)⟩

/-! ## Messages, configuration and the tracked-object data model -/

/-- `std_msgs::Header`: a timestamp and a frame identifier. -/
structure Header where
  stamp : ℚ
  frame_id : String
deriving DecidableEq

/-- `worldmodel_msgs::PerceptInfo`: class/object hints and support values. -/
structure PerceptInfo where
  class_id : String
  object_id : String
  class_support : ℚ
  object_support : ℚ
deriving DecidableEq

/-- `worldmodel_msgs::PosePercept`.  `covariance` is the 3x3 positional block
    of the message's 6x6 covariance — the only part the tracker reads. -/
structure PosePercept where
  header : Header
  info : PerceptInfo
  position : Vec3
  orientation : Quat
  covariance : Mat3
deriving DecidableEq

/-- `tf::StampedTransform`: a rigid transform, rotation as a quaternion. -/
structure StampedTransform where
  rotation : Quat
  origin : Vec3
deriving DecidableEq

/-- The transform used when no tf lookup happens (the source leaves the
    variable default-constructed in that case; modelled as the identity). -/
def StampedTransform.identity : StampedTransform := ⟨Quat.one, Vec3.zero⟩

/-- Configuration parameters of the tracker node. -/
structure Config where
  project_objects : Bool
  frame_id : String
  default_distance : ℚ
  distance_variance : ℚ
  angle_variance : ℚ
  min_height : ℚ
  max_height : ℚ
deriving DecidableEq

/-- Modelled from the spec: the PENDING object state (`Object.h` is not among
    the sources); created objects start non-locked, and the source treats
    exactly the negative states as the locked/fixed sentinel
    (`object->getState() < 0`). -/
def pendingState : Int := 0

/-- Modelled from the spec: the DISCARDED state constant
    (`worldmodel_msgs::ObjectState::DISCARDED`; the message definition is not
    among the sources).  The spec distinguishes DISCARDED from the locked
    sentinel, so it is non-negative. -/
def discardedState : Int := 2

/-- One tracked object of the world model (`Object` from `Object.h`; the
    field set follows the spec's TrackedObject data model). -/
structure TrackedObject where
  object_id : String
  class_id : String
  position : Vec3
  orientation : Quat
  covariance : Mat3
  support : ℚ
  state : Int
  header : Header
deriving DecidableEq

/-- Modelled from the spec: `Object::addSupport` — support accumulates
    additively. -/
def TrackedObject.addSupport (o : TrackedObject) (s : ℚ) : TrackedObject :=
  { o with support := o.support + s }

/-- Modelled from the spec: `Object::update(position, covariance, support)`
    (`Object.h`/`Object.cpp` are not among the sources).  Spec §4.3 step 4 and
    the §9 design note prescribe a covariance-weighted information-form fusion
    that adds the observation's support: with gain
    `K = Σ_obj (Σ_obj + Σ_obs)⁻¹` the position becomes `x + K (z - x)`, the
    covariance `K Σ_obs`, and the support `support + s`. -/
def TrackedObject.update (o : TrackedObject) (pos : Vec3) (cov : Mat3) (s : ℚ) : TrackedObject :=
  let gain := o.covariance * Mat3.inv (o.covariance + cov)
  { o with
    position := o.position + Mat3.mulVec gain (pos - o.position)
    covariance := gain * cov
    support := o.support + s }

/-- Modelled from the spec: construction of a fresh object with the given
    class and (already assigned) identifier; new objects start PENDING. -/
def mkObject (class_id object_id : String) : TrackedObject :=
  { object_id := object_id
    class_id := class_id
    position := Vec3.zero
    orientation := Quat.one
    covariance := Mat3.zero
    support := 0
    state := pendingState
    header := ⟨0, ""⟩ }

/-- The identifier auto-assigned by the store when an observation carries
    none. -/
def autoId (n : ℕ) : String := "object" ++ toString n

/-- Modelled from the spec: the object store — an insertion-ordered
    collection of tracked objects, unique by identifier, with a creation
    counter for auto-assigned identifiers. -/
structure ObjectModel where
  objects : List TrackedObject
  next_id : ℕ
deriving DecidableEq

/-- The empty store; also the result of the reset command. -/
def ObjectModel.empty : ObjectModel := ⟨[], 0⟩

/-- Modelled from the spec: lookup-by-identifier. -/
def ObjectModel.getObject (m : ObjectModel) (object_id : String) : Option TrackedObject :=
  m.objects.find? (fun o => o.object_id == object_id)

/-- Modelled from the spec: add-by-class/id — auto-assigns an identifier when
    none is given and errors (`none`) if the identifier already exists. -/
def ObjectModel.add (m : ObjectModel) (class_id object_id : String) :
    Option (TrackedObject × ObjectModel) :=
  let assigned := if object_id = "" then autoId m.next_id else object_id
  match m.getObject assigned with
  | some _ => none
  | none =>
    let fresh := mkObject class_id assigned
    some (fresh, ⟨m.objects ++ [fresh], m.next_id + 1⟩)

/-- Modelled from the spec: insertion of a pre-built object. -/
def ObjectModel.addExisting (m : ObjectModel) (o : TrackedObject) : ObjectModel :=
  ⟨m.objects ++ [o], m.next_id + 1⟩

/-- Writing a mutated object back into the store.  The source mutates the
    stored object in place through a shared pointer; with identifiers unique
    in the store this is replacement by identifier. -/
def ObjectModel.setObject (m : ObjectModel) (o : TrackedObject) : ObjectModel :=
  ⟨m.objects.map (fun x => if x.object_id = o.object_id then o else x), m.next_id⟩

/-- A message published by the tracker: a single-object update on the
    `object` channel or a full snapshot on the `objects` model channel. -/
inductive Pub where
  | objectUpdate (o : TrackedObject)
  | modelSnapshot (objs : List TrackedObject)
deriving DecidableEq

/-- Result of one callback: the store afterwards and the published messages,
    in publication order. -/
structure CycleResult where
  model : ObjectModel
  pubs : List Pub
deriving DecidableEq

/-- Result of a service callback (`setObjectStateCb` / `addObjectCb`):
    success flag, the response object if any, the store afterwards and the
    published messages. -/
structure ServiceResult where
  success : Bool
  object : Option TrackedObject
  model : ObjectModel
  pubs : List Pub
deriving DecidableEq

/-- One verification service response for a cycle (a failed call behaves like
    UNKNOWN). -/
inductive VerifyResponse where
  | confirm
  | discard
  | unknown
  | unreachable
deriving DecidableEq

/-! ## The tracker callbacks -/

/-- Lines 254–275: one verification response applied to the object — DISCARD
    sets the state to DISCARDED, CONFIRM adds a fixed support bonus of 100,
    UNKNOWN and a failed call have no effect. -/
def applyVerification (o : TrackedObject) (r : VerifyResponse) : TrackedObject :=
  match r with
  | .confirm => o.addSupport 100
  | .discard => { o with state := discardedState }
  | .unknown => o
  | .unreachable => o

/-- All configured verification responses applied in turn, with no
    short-circuit after a DISCARD. -/
def applyVerifications (rs : List VerifyResponse) (o : TrackedObject) : TrackedObject :=
  rs.foldl applyVerification o

/-- Line 75–81, `sysCommandCb`: the reset command empties the store.  No
    publication happens on this path. -/
def sysCommandCb (cmd : String) (m : ObjectModel) : CycleResult :=
  if cmd = "reset" then ⟨ObjectModel.empty, []⟩ else ⟨m, []⟩

/-- Lines 140–145: the default positional covariance synthesized when the
    sensor supplied the zero matrix — the configured distance variance on the
    radial (bearing) axis and `max(distance², 1) * angle_variance` on the two
    orthogonal axes.  `dist2` is the squared range. -/
def synthCovariance (cfg : Config) (dist2 : ℚ) : Mat3 :=
  { Mat3.zero with
    a00 := cfg.distance_variance
    a11 := max dist2 1 * cfg.angle_variance
    a22 := max dist2 1 * cfg.angle_variance }

/-- Line 207: the squared Mahalanobis distance between an object and the
    observation position, using the sum of the two covariances:
    `diffᵀ (Σ_obj + Σ_obs)⁻¹ diff`. -/
def mahalanobisSq (o : TrackedObject) (pos : Vec3) (cov : Mat3) : ℚ :=
  Vec3.dot (o.position - pos) (Mat3.mulVec (Mat3.inv (o.covariance + cov)) (o.position - pos))

/-- Lines 203–212, the body of the correspondence loop: skip objects whose
    class differs from a non-empty class hint, otherwise keep the object iff
    its squared Mahalanobis distance is strictly below the running minimum. -/
def scanStep (class_id : String) (pos : Vec3) (cov : Mat3)
    (acc : Option TrackedObject × ℚ) (x : TrackedObject) : Option TrackedObject × ℚ :=
  if ¬ class_id = "" ∧ ¬ class_id = x.class_id then acc
  else
    let d := mahalanobisSq x pos cov
    if d < acc.2 then (some x, d) else acc

/-- Lines 199–213: the correspondence scan over the whole store, starting
    from no match and a running minimum of `1.0` (the gating threshold). -/
def findCorrespondence (objs : List TrackedObject) (class_id : String) (pos : Vec3)
    (cov : Mat3) : Option TrackedObject × ℚ :=
  objs.foldl (scanStep class_id pos cov) (none, 1)

/-- The candidate condition of the scan: an object is examined iff the class
    hint is empty or equals the object's class. -/
def candidateClass (class_id : String) (x : TrackedObject) : Prop :=
  class_id = "" ∨ class_id = x.class_id

instance (class_id : String) (x : TrackedObject) : Decidable (candidateClass class_id x) := by
  unfold candidateClass; infer_instance

/-- The result of the pre-lock part of `posePerceptCb`: the observation in
    the global frame, ready for association. -/
structure ProcessedPercept where
  position : Vec3
  rotation : Quat
  covariance : Mat3
  support : ℚ
  class_id : String
  object_id : String
  stamp : ℚ
deriving DecidableEq

/-- Lines 109–194 of `posePerceptCb`: obstacle projection, covariance
    synthesis and rotation, transform into the global frame, the height band
    check and support extraction.  `eulerQuat` is the trigonometric
    `tf::Quaternion(yaw, pitch, 0)` constructor, `unitOf` is
    `tf::Vector3::normalized`, `ranging` the obstacle-distance response
    (`none` when the service call fails) and `tfl` the tf lookup result
    (`none` when it throws).  `none` overall means the observation is
    dropped before the store is touched. -/
def projectPercept (cfg : Config) (eulerQuat : ℚ → ℚ → Quat) (unitOf : Vec3 → Vec3)
    (ranging : Option ℚ) (tfl : Option StampedTransform)
    (percept : PosePercept) : Option ProcessedPercept :=
  let p0 := percept.position
  let direction := eulerQuat (p0.y / p0.x) (-p0.z / p0.x)
  let projected : Option (Vec3 × ℚ) :=
    if cfg.project_objects then
      match ranging with
      | some d => if 0 < d then some (Vec3.smul d (unitOf p0), d * d) else none
      | none => none
    else some (p0, Vec3.normSq p0)
  match projected with
  | none => none
  | some (pos1, dist2) =>
    let cov0 := if percept.covariance = Mat3.zero then synthCovariance cfg dist2
                else percept.covariance
    let rotDir := Quat.toMatrix direction
    let cov1 := rotDir * cov0 * rotDir.transpose
    let tfStep : Option (Vec3 × Quat × Mat3 × StampedTransform) :=
      if ¬ cfg.frame_id = "" ∧ ¬ percept.header.frame_id = cfg.frame_id then
        match tfl with
        | none => none
        | some t =>
          let rotMap := Quat.toMatrix t.rotation
          some (Mat3.mulVec rotMap pos1 + t.origin, Quat.mul t.rotation percept.orientation,
                rotMap * cov1 * rotMap.transpose, t)
      else some (pos1, percept.orientation, cov1, StampedTransform.identity)
    match tfStep with
    | none => none
    | some (pos2, rot2, cov2, camT) =>
      let relHeight := pos2.z - camT.origin.z
      if relHeight < cfg.min_height ∨ cfg.max_height < relHeight then none
      else
        let support :=
          if ¬ percept.info.object_id = "" then percept.info.object_support
          else if ¬ percept.info.class_id = "" then percept.info.class_support
          else 0
        if support = 0 then none
        else
          some { position := pos2, rotation := rot2, covariance := cov2, support := support,
                 class_id := percept.info.class_id, object_id := percept.info.object_id,
                 stamp := percept.header.stamp }

/-- Lines 196–279 of `posePerceptCb`: the locked section — correspondence
    scan (skipped when the observation names an object), the fixed-state
    guard, creation / fusion / support decay, orientation and header
    overwrite — followed by the verification round and publication of the
    object update and the model snapshot. -/
def associateAndFuse (cfg : Config) (verifications : List VerifyResponse)
    (pp : ProcessedPercept) (m : ObjectModel) : CycleResult :=
  let found :=
    if pp.object_id = "" then
      (findCorrespondence m.objects pp.class_id pp.position pp.covariance).1
    else none
  match found with
  | some o =>
    if o.state < 0 then ⟨m, []⟩
    else
      let o1 := if 0 < pp.support then o.update pp.position pp.covariance pp.support
                else o.addSupport pp.support
      let o2 := applyVerifications verifications
        { o1 with orientation := pp.rotation, header := ⟨pp.stamp, cfg.frame_id⟩ }
      let m1 := m.setObject o2
      ⟨m1, [Pub.objectUpdate o2, Pub.modelSnapshot m1.objects]⟩
  | none =>
    match m.add pp.class_id pp.object_id with
    | none => ⟨m, []⟩
    | some (fresh, m1) =>
      let o1 := { fresh with position := pp.position, covariance := pp.covariance,
                             support := pp.support }
      let o2 := applyVerifications verifications
        { o1 with orientation := pp.rotation, header := ⟨pp.stamp, cfg.frame_id⟩ }
      let m2 := m1.setObject o2
      ⟨m2, [Pub.objectUpdate o2, Pub.modelSnapshot m2.objects]⟩

/-- `ObjectTracker::posePerceptCb`, whole callback: preparation followed by
    the locked association/fusion section; a dropped observation leaves the
    store untouched and publishes nothing. -/
def posePerceptCb (cfg : Config) (eulerQuat : ℚ → ℚ → Quat) (unitOf : Vec3 → Vec3)
    (ranging : Option ℚ) (tfl : Option StampedTransform)
    (verifications : List VerifyResponse) (percept : PosePercept)
    (m : ObjectModel) : CycleResult :=
  match projectPercept cfg eulerQuat unitOf ranging tfl percept with
  | none => ⟨m, []⟩
  | some pp => associateAndFuse cfg verifications pp m

/-- Lines 282–297, `ObjectTracker::setObjectStateCb`: overwrite the state of
    a named object; `not found` fails with no mutation. -/
def setObjectStateCb (object_id : String) (new_state : Int) (m : ObjectModel) : ServiceResult :=
  match m.getObject object_id with
  | none => ⟨false, none, m, []⟩
  | some o =>
    let o1 := { o with state := new_state }
    let m1 := m.setObject o1
    ⟨true, some o1, m1, [Pub.objectUpdate o1, Pub.modelSnapshot m1.objects]⟩

/-- Lines 363–392, `ObjectTracker::mapToNextObstacle`: rescale a position to
    the obstacle distance returned by the ranging service; fails when the
    service does not exist, the call fails, or the distance is not positive. -/
def mapToNextObstacle (serviceExists : Bool) (ranging : Option ℚ) (unitOf : Vec3 → Vec3)
    (source : Vec3) : Option Vec3 :=
  if serviceExists = false then none
  else
    match ranging with
    | some d => if 0 < d then some (Vec3.smul d (unitOf source)) else none
    | none => none

/-- Lines 394–425, `ObjectTracker::transformPose`: transform a pose into the
    global frame; `none` when the tf lookup throws.  (The source leaves the
    covariance unrotated here — a marked TODO.) -/
def transformPose (tfl : Option StampedTransform) (pos : Vec3) (rot : Quat) :
    Option (Vec3 × Quat) :=
  match tfl with
  | none => none
  | some t => some (Mat3.mulVec (Quat.toMatrix t.rotation) pos + t.origin,
                    Quat.mul t.rotation rot)

/-- `worldmodel_msgs::AddObject::Request`: a full object description plus the
    obstacle-projection flag.  `covariance` is the 3x3 positional block. -/
structure AddObjectRequest where
  header : Header
  class_id : String
  object_id : String
  position : Vec3
  orientation : Quat
  covariance : Mat3
  state : Int
  support : ℚ
  map_to_next_obstacle : Bool
deriving DecidableEq

/-- Lines 299–356, `ObjectTracker::addObjectCb`: explicit create-or-update.
    Lookup by identifier (empty means create), default the timestamp to
    `now`, optionally project the pose to the next obstacle, default a zero
    covariance to unit variances, transform into the global frame, then
    overwrite the object's header, pose, covariance, state and support, insert
    it if new and publish.  Both the projection and the transform failure
    return before the store is touched. -/
def addObjectCb (cfg : Config) (serviceExists : Bool) (ranging : Option ℚ)
    (tfl : Option StampedTransform) (unitOf : Vec3 → Vec3) (now : ℚ)
    (req : AddObjectRequest) (m : ObjectModel) : ServiceResult :=
  let existing := if ¬ req.object_id = "" then m.getObject req.object_id else none
  let obj0 :=
    match existing with
    | some o => o
    | none => mkObject req.class_id
        (if req.object_id = "" then autoId m.next_id else req.object_id)
  let stamp := if req.header.stamp = 0 then now else req.header.stamp
  let posed : Option (Vec3 × Quat × Mat3) :=
    if req.map_to_next_obstacle then
      match mapToNextObstacle serviceExists ranging unitOf req.position with
      | none => none
      | some q => some (q, req.orientation, req.covariance)
    else some (req.position, req.orientation, req.covariance)
  match posed with
  | none => ⟨false, none, m, []⟩
  | some (pos1, rot1, cov1) =>
    let cov2 := if cov1 = Mat3.zero then Mat3.identity else cov1
    match transformPose tfl pos1 rot1 with
    | none => ⟨false, none, m, []⟩
    | some (pos2, rot2) =>
      let obj1 := { obj0 with
        header := ⟨stamp, cfg.frame_id⟩
        position := pos2
        orientation := rot2
        covariance := cov2
        state := req.state
        support := req.support }
      let m1 := if existing.isNone then m.addExisting obj1 else m.setObject obj1
      ⟨true, some obj1, m1, [Pub.objectUpdate obj1, Pub.modelSnapshot m1.objects]⟩

/-! ## The bearing-only adapter (`imagePerceptCb`) -/

/-- The calibration payload of `sensor_msgs::CameraInfo`, kept opaque. -/
structure CameraInfo where
  data : ℚ
deriving DecidableEq

/-- Lines 90–93: the camera-model cache keyed by frame id — a model is built
    from a percept's `camera_info` only when the frame id is not yet cached
    (`cameraModels.count(frame_id) == 0`). -/
def cacheInsert (cache : List (String × CameraInfo)) (frame : String) (info : CameraInfo) :
    List (String × CameraInfo) :=
  if (cache.lookup frame).isSome then cache else (frame, info) :: cache

/-- Lines 90–94: the camera model used to process one image percept — the
    cached entry for the percept's frame after the conditional insertion. -/
def usedCameraModel (cache : List (String × CameraInfo)) (frame : String)
    (info : CameraInfo) : CameraInfo :=
  ((cacheInsert cache frame info).lookup frame).getD ⟨0⟩

/-- The cache contents after a sequence of image percepts `(frame id,
    camera_info)` processed from an empty cache. -/
def processCameraInfos (ps : List (String × CameraInfo)) : List (String × CameraInfo) :=
  ps.foldl (fun c q => cacheInsert c q.1 q.2) []

/-- Line 112 (and its twin, line 97): the two Euler-angle arguments passed to
    the direction-quaternion constructor, `y/x` and `-z/x`.  The source
    divides unconditionally; `none` records that a division with divisor zero
    was performed, which on the float hardware produces NaN or infinity. -/
def dirQuatArgs (p : Vec3) : Option (ℚ × ℚ) :=
  if p.x = 0 then none else some (p.y / p.x, -p.z / p.x)

/-! ## Concrete fixtures used by witnesses and counterexamples -/

/-- A configuration with the default parameter values of the node
    (`angle_variance` set to 1 to keep the arithmetic readable). -/
def mapConfig : Config :=
  { project_objects := false, frame_id := "map", default_distance := 1,
    distance_variance := 1, angle_variance := 1, min_height := -999, max_height := 999 }

/-- A tracked object of class `cup` at the origin. -/
def cupObject : TrackedObject :=
  { object_id := "A", class_id := "cup", position := Vec3.zero, orientation := Quat.one,
    covariance := Mat3.identity, support := 5, state := 0, header := ⟨0, "map"⟩ }

/-- A class-less tracked object at the origin. -/
def unclassifiedObject : TrackedObject := { cupObject with object_id := "B", class_id := "" }

/-- A `cup` object far from the origin (squared Mahalanobis distance 50). -/
def farObject : TrackedObject := { cupObject with object_id := "F", position := ⟨10, 0, 0⟩ }

/-- A locked (negative-state) `cup` object at the origin. -/
def lockedObject : TrackedObject := { cupObject with object_id := "L", state := -1 }

/-- A store holding only `farObject`. -/
def farModel : ObjectModel := ⟨[farObject], 0⟩

/-- A store holding only `cupObject`. -/
def cupModel : ObjectModel := ⟨[cupObject], 0⟩

/-- A store holding only `lockedObject`. -/
def lockedModel : ObjectModel := ⟨[lockedObject], 0⟩

/-- A processed observation of class `cup` at the origin with no object id. -/
def ppNew : ProcessedPercept :=
  { position := Vec3.zero, rotation := Quat.one, covariance := Mat3.identity,
    support := 1, class_id := "cup", object_id := "", stamp := 0 }

/-- A processed observation naming object `A` explicitly, away from it. -/
def ppNamedA : ProcessedPercept := { ppNew with object_id := "A", position := ⟨3, 0, 0⟩ }

/-- A pose percept of class `cup` in the map frame with unit covariance. -/
def cupPercept : PosePercept :=
  { header := ⟨0, "map"⟩, info := ⟨"cup", "", 1, 0⟩, position := ⟨1, 0, 0⟩,
    orientation := Quat.one, covariance := Mat3.identity }

/-- The same percept aimed at the locked object's position. -/
def lockedPercept : PosePercept := { cupPercept with position := Vec3.zero }

/-- A pose percept with the zero covariance block, at range 2. -/
def zeroCovPercept : PosePercept := { cupPercept with position := ⟨2, 0, 0⟩, covariance := Mat3.zero }

/-- A create-request with the projection flag set. -/
def projectedRequest : AddObjectRequest :=
  { header := ⟨1, "base"⟩, class_id := "cup", object_id := "", position := ⟨1, 0, 0⟩,
    orientation := Quat.one, covariance := Mat3.zero, state := 0, support := 1,
    map_to_next_obstacle := true }

/-! ## Bridge and arithmetic lemmas -/

lemma Vec3.vecAddEq (a b : Vec3) : a + b = Vec3.add a b := rfl

lemma Vec3.vecSubEq (a b : Vec3) : a - b = Vec3.sub a b := rfl

lemma Mat3.matAddEq (a b : Mat3) : a + b = Mat3.add a b := rfl

lemma Mat3.matMulEq (a b : Mat3) : a * b = Mat3.mul a b := rfl

lemma Vec3.sub_self (v : Vec3) : v - v = Vec3.zero := by
  cases v
  simp [Vec3.vecSubEq, Vec3.sub, Vec3.zero]

lemma Vec3.addZero (v : Vec3) : v + Vec3.zero = v := by
  cases v
  simp [Vec3.vecAddEq, Vec3.add, Vec3.zero]

lemma Mat3.mulVec_zeroVec (m : Mat3) : m.mulVec Vec3.zero = Vec3.zero := by
  simp [Mat3.mulVec, Vec3.zero]

lemma mahalanobisSq_eq_zero (o : TrackedObject) (pos : Vec3) (cov : Mat3)
    (h : o.position = pos) : mahalanobisSq o pos cov = 0 := by
  unfold mahalanobisSq
  rw [h, Vec3.sub_self, Mat3.mulVec_zeroVec]
  simp [Vec3.dot, Vec3.zero]

lemma update_at_own_position (o : TrackedObject) (cov : Mat3) (s : ℚ) :
    (o.update o.position cov s).position = o.position ∧
    (o.update o.position cov s).support = o.support + s ∧
    (o.update o.position cov s).state = o.state ∧
    (o.update o.position cov s).class_id = o.class_id ∧
    (o.update o.position cov s).object_id = o.object_id := by
  unfold TrackedObject.update
  refine ⟨?_, rfl, rfl, rfl, rfl⟩
  simp only [Vec3.sub_self, Mat3.mulVec_zeroVec, Vec3.addZero]

lemma applyVerifications_fields (rs : List VerifyResponse) (o : TrackedObject) :
    (applyVerifications rs o).position = o.position ∧
    (applyVerifications rs o).covariance = o.covariance ∧
    (applyVerifications rs o).object_id = o.object_id ∧
    (applyVerifications rs o).class_id = o.class_id ∧
    (applyVerifications rs o).orientation = o.orientation ∧
    (applyVerifications rs o).header = o.header := by
  induction rs generalizing o with
  | nil => exact ⟨rfl, rfl, rfl, rfl, rfl, rfl⟩
  | cons r rs ih =>
    have h1 : applyVerifications (r :: rs) o = applyVerifications rs (applyVerification o r) :=
      rfl
    rw [h1]
    rcases ih (applyVerification o r) with ⟨h2, h3, h4, h5, h6, h7⟩
    cases r <;>
      simp only [applyVerification, TrackedObject.addSupport] at h2 h3 h4 h5 h6 h7 <;>
      exact ⟨h2, h3, h4, h5, h6, h7⟩

/-! ## Store lemmas -/

lemma map_setObject_of_ne (l : List TrackedObject) (o : TrackedObject)
    (h : ∀ x, x ∈ l → ¬ x.object_id = o.object_id) :
    l.map (fun x => if x.object_id = o.object_id then o else x) = l := by
  induction l with
  | nil => rfl
  | cons a l ih =>
    simp only [List.map_cons]
    rw [if_neg (h a (List.mem_cons_self a l)), ih (fun x hx => h x (List.mem_cons_of_mem a hx))]

lemma setObject_append (l : List TrackedObject) (k : ℕ) (fresh o : TrackedObject)
    (hid : fresh.object_id = o.object_id)
    (h : ∀ x, x ∈ l → ¬ x.object_id = o.object_id) :
    (ObjectModel.setObject ⟨l ++ [fresh], k⟩ o).objects = l ++ [o] := by
  simp only [ObjectModel.setObject, List.map_append, List.map_cons, List.map_nil]
  rw [if_pos hid, map_setObject_of_ne l o h]

lemma getObject_none_forall (m : ObjectModel) (oid : String)
    (h : m.getObject oid = none) : ∀ x, x ∈ m.objects → ¬ x.object_id = oid := by
  intro x hx
  have h2 := List.find?_eq_none.mp h x hx
  simpa using h2

/-! ## The correspondence scan: invariant and characterization -/

lemma scanStep_cases (cls : String) (pos : Vec3) (cov : Mat3)
    (acc : Option TrackedObject × ℚ) (a : TrackedObject) :
    (¬ candidateClass cls a ∧ scanStep cls pos cov acc a = acc) ∨
    (candidateClass cls a ∧ acc.2 ≤ mahalanobisSq a pos cov ∧
      scanStep cls pos cov acc a = acc) ∨
    (candidateClass cls a ∧ mahalanobisSq a pos cov < acc.2 ∧
      scanStep cls pos cov acc a = (some a, mahalanobisSq a pos cov)) := by
  by_cases h1 : ¬ cls = "" ∧ ¬ cls = a.class_id
  · left
    constructor
    · intro hc
      rcases hc with hc | hc
      · exact h1.1 hc
      · exact h1.2 hc
    · unfold scanStep
      rw [if_pos h1]
  · have hcand : candidateClass cls a := by
      unfold candidateClass
      rcases not_and_or.mp h1 with h | h
      · exact Or.inl (not_not.mp h)
      · exact Or.inr (not_not.mp h)
    by_cases h2 : mahalanobisSq a pos cov < acc.2
    · right; right
      refine ⟨hcand, h2, ?_⟩
      unfold scanStep
      rw [if_neg h1]
      simp only [if_pos h2]
    · right; left
      refine ⟨hcand, not_lt.mp h2, ?_⟩
      unfold scanStep
      rw [if_neg h1]
      simp only [if_neg h2]

lemma scan_spec (cls : String) (pos : Vec3) (cov : Mat3) :
    ∀ (objs : List TrackedObject) (acc : Option TrackedObject × ℚ),
      (List.foldl (scanStep cls pos cov) acc objs = acc ∨
        ∃ o, o ∈ objs ∧ candidateClass cls o ∧
          List.foldl (scanStep cls pos cov) acc objs = (some o, mahalanobisSq o pos cov) ∧
          (List.foldl (scanStep cls pos cov) acc objs).2 < acc.2) ∧
      (∀ x, x ∈ objs → candidateClass cls x →
        (List.foldl (scanStep cls pos cov) acc objs).2 ≤ mahalanobisSq x pos cov) ∧
      (List.foldl (scanStep cls pos cov) acc objs).2 ≤ acc.2 := by
  intro objs
  induction objs with
  | nil =>
    intro acc
    refine ⟨Or.inl rfl, ?_, le_refl _⟩
    intro x hx
    cases hx
  | cons a objs ih =>
    intro acc
    rw [List.foldl_cons]
    rcases scanStep_cases cls pos cov acc a with ⟨hnc, heq⟩ | ⟨hc, hge, heq⟩ | ⟨hc, hlt, heq⟩
    · rw [heq]
      rcases ih acc with ⟨ihA, ihB, ihC⟩
      refine ⟨?_, ?_, ihC⟩
      · rcases ihA with h | ⟨o, ho, hco, he, hl⟩
        · exact Or.inl h
        · exact Or.inr ⟨o, List.mem_cons_of_mem a ho, hco, he, hl⟩
      · intro x hx hcx
        rcases List.mem_cons.mp hx with rfl | hx2
        · exact absurd hcx hnc
        · exact ihB x hx2 hcx
    · rw [heq]
      rcases ih acc with ⟨ihA, ihB, ihC⟩
      refine ⟨?_, ?_, ihC⟩
      · rcases ihA with h | ⟨o, ho, hco, he, hl⟩
        · exact Or.inl h
        · exact Or.inr ⟨o, List.mem_cons_of_mem a ho, hco, he, hl⟩
      · intro x hx hcx
        rcases List.mem_cons.mp hx with rfl | hx2
        · exact le_trans ihC hge
        · exact ihB x hx2 hcx
    · rw [heq]
      rcases ih (some a, mahalanobisSq a pos cov) with ⟨ihA, ihB, ihC⟩
      have hC2 : (List.foldl (scanStep cls pos cov) (some a, mahalanobisSq a pos cov) objs).2 ≤
          mahalanobisSq a pos cov := ihC
      refine ⟨?_, ?_, le_of_lt (lt_of_le_of_lt hC2 hlt)⟩
      · rcases ihA with h | ⟨o, ho, hco, he, hl⟩
        · right
          refine ⟨a, List.mem_cons_self a objs, hc, h, ?_⟩
          rw [h]
          exact hlt
        · right
          exact ⟨o, List.mem_cons_of_mem a ho, hco, he, lt_of_lt_of_le hl (le_of_lt hlt) |>.trans_le (le_refl _)⟩
      · intro x hx hcx
        rcases List.mem_cons.mp hx with rfl | hx2
        · exact hC2
        · exact ihB x hx2 hcx

lemma findCorrespondence_some (objs : List TrackedObject) (cls : String) (pos : Vec3)
    (cov : Mat3) (o : TrackedObject) (d : ℚ)
    (h : findCorrespondence objs cls pos cov = (some o, d)) :
    o ∈ objs ∧ candidateClass cls o ∧ d = mahalanobisSq o pos cov ∧ d < 1 ∧
      ∀ x, x ∈ objs → candidateClass cls x → d ≤ mahalanobisSq x pos cov := by
  rcases scan_spec cls pos cov objs (none, 1) with ⟨hA, hB, _⟩
  unfold findCorrespondence at h
  rcases hA with he | ⟨o2, ho2, hco2, he2, hl2⟩
  · rw [h] at he
    exact absurd (congrArg Prod.fst he) (by simp)
  · rw [h] at he2 hl2
    have hoo : o = o2 ∧ d = mahalanobisSq o2 pos cov := by
      have h1 := congrArg Prod.fst he2
      have h2 := congrArg Prod.snd he2
      simp at h1 h2
      exact ⟨h1, h2⟩
    rcases hoo with ⟨rfl, rfl⟩
    refine ⟨ho2, hco2, rfl, by simpa using hl2, ?_⟩
    intro x hx hcx
    have h3 := hB x hx hcx
    rw [h] at h3
    simpa using h3

lemma findCorrespondence_none (objs : List TrackedObject) (cls : String) (pos : Vec3)
    (cov : Mat3) (h : (findCorrespondence objs cls pos cov).1 = none) :
    findCorrespondence objs cls pos cov = (none, 1) ∧
      ∀ x, x ∈ objs → candidateClass cls x → 1 ≤ mahalanobisSq x pos cov := by
  rcases scan_spec cls pos cov objs (none, 1) with ⟨hA, hB, _⟩
  unfold findCorrespondence at h ⊢
  rcases hA with he | ⟨o2, _, _, he2, _⟩
  · refine ⟨he, ?_⟩
    intro x hx hcx
    have h3 := hB x hx hcx
    rw [he] at h3
    simpa using h3
  · rw [he2] at h
    simp at h

/-! ## The creation branch of the locked section -/

lemma associateAndFuse_creates (cfg : Config) (vs : List VerifyResponse)
    (pp : ProcessedPercept) (m : ObjectModel) (assigned : String)
    (hass : (if pp.object_id = "" then autoId m.next_id else pp.object_id) = assigned)
    (hfound : (if pp.object_id = "" then
        (findCorrespondence m.objects pp.class_id pp.position pp.covariance).1
      else none) = none)
    (hfresh : m.getObject assigned = none) :
    ∃ o2, associateAndFuse cfg vs pp m =
        ⟨⟨m.objects ++ [o2], m.next_id + 1⟩,
         [Pub.objectUpdate o2, Pub.modelSnapshot (m.objects ++ [o2])]⟩ ∧
      o2.object_id = assigned ∧ o2.position = pp.position ∧
      o2.covariance = pp.covariance ∧ o2.class_id = pp.class_id ∧
      (vs = [] → o2.support = pp.support ∧ o2.state = pendingState) := by
  set F := mkObject pp.class_id assigned with hF
  have hadd : m.add pp.class_id pp.object_id = some (F, ⟨m.objects ++ [F], m.next_id + 1⟩) := by
    simp only [ObjectModel.add]
    rw [hass, hfresh]
  set G := applyVerifications vs
    { F with position := pp.position, covariance := pp.covariance, support := pp.support,
             orientation := pp.rotation, header := ⟨pp.stamp, cfg.frame_id⟩ } with hG
  have hfieldsG := applyVerifications_fields vs
    { F with position := pp.position, covariance := pp.covariance, support := pp.support,
             orientation := pp.rotation, header := ⟨pp.stamp, cfg.frame_id⟩ }
  rw [← hG] at hfieldsG
  have hGid : G.object_id = assigned := by
    rw [hfieldsG.2.2.1, hF]
    rfl
  have heq : associateAndFuse cfg vs pp m =
      ⟨ObjectModel.setObject ⟨m.objects ++ [F], m.next_id + 1⟩ G,
       [Pub.objectUpdate G,
        Pub.modelSnapshot (ObjectModel.setObject ⟨m.objects ++ [F], m.next_id + 1⟩ G).objects]⟩ := by
    unfold associateAndFuse
    rw [hfound, hadd]
  have hne : ∀ x, x ∈ m.objects → ¬ x.object_id = G.object_id := by
    intro x hx
    rw [hGid]
    exact getObject_none_forall m assigned hfresh x hx
  have hFid : F.object_id = G.object_id := by
    rw [hGid, hF]
    rfl
  have hset : ObjectModel.setObject ⟨m.objects ++ [F], m.next_id + 1⟩ G =
      ⟨m.objects ++ [G], m.next_id + 1⟩ := by
    simp only [ObjectModel.setObject, ObjectModel.mk.injEq, List.map_append, List.map_cons,
      List.map_nil, and_true]
    rw [if_pos hFid, map_setObject_of_ne m.objects G hne]
  refine ⟨G, ?_, hGid, hfieldsG.1, hfieldsG.2.1, ?_, ?_⟩
  · rw [heq, hset]
  · rw [hfieldsG.2.2.2.1, hF]
    rfl
  · intro hvs
    subst hvs
    exact ⟨rfl, rfl⟩

/-! ## Claim C1 -/

/-- Claim C1: for a post-projection observation without an explicit object
    identifier, the association step computes for each candidate object the
    squared Mahalanobis distance `diffᵀ (Σ_obj + Σ_obs)⁻¹ diff`, selects the
    object minimizing it only if that minimum is strictly below 1, and
    otherwise — every candidate at distance ≥ 1 — the locked section creates
    a new object (appended to the store, existing objects untouched) instead
    of fusing. -/
theorem mahalanobis_gating (m : ObjectModel) (cls : String) (pos : Vec3) (cov : Mat3) :
    (∀ o d, findCorrespondence m.objects cls pos cov = (some o, d) →
        o ∈ m.objects ∧ candidateClass cls o ∧ d = mahalanobisSq o pos cov ∧ d < 1 ∧
        ∀ x, x ∈ m.objects → candidateClass cls x → d ≤ mahalanobisSq x pos cov) ∧
    ((findCorrespondence m.objects cls pos cov).1 = none →
        ∀ x, x ∈ m.objects → candidateClass cls x → 1 ≤ mahalanobisSq x pos cov) ∧
    (∀ (cfg : Config) (vs : List VerifyResponse) (pp : ProcessedPercept),
        pp.object_id = "" → pp.class_id = cls → pp.position = pos → pp.covariance = cov →
        (findCorrespondence m.objects cls pos cov).1 = none →
        m.getObject (autoId m.next_id) = none →
        ∃ o2, (associateAndFuse cfg vs pp m).model.objects = m.objects ++ [o2] ∧
          o2.position = pos ∧ o2.covariance = cov) := by
  refine ⟨?_, ?_, ?_⟩
  · intro o d h
    exact findCorrespondence_some m.objects cls pos cov o d h
  · intro h
    exact (findCorrespondence_none m.objects cls pos cov h).2
  · intro cfg vs pp h1 h2 h3 h4 h5 h6
    obtain ⟨o2, heq, _, hpos, hcov, _, _⟩ :=
      associateAndFuse_creates cfg vs pp m (autoId m.next_id)
        (by rw [h1, if_pos rfl]) (by rw [h1, if_pos rfl, h2, h3, h4]; exact h5) h6
    refine ⟨o2, ?_, by rw [hpos, h3], by rw [hcov, h4]⟩
    rw [heq]

/-- Witness for C1: with only the far `cup` object in the store (squared
    Mahalanobis distance 50 from the origin), an origin observation finds
    every candidate at distance ≥ 1 and a new object is appended. -/
theorem mahalanobis_gating_witness :
    (1 ≤ mahalanobisSq farObject Vec3.zero Mat3.identity) ∧
    ∃ o2, (associateAndFuse mapConfig [] ppNew farModel).model.objects =
        farModel.objects ++ [o2] ∧ o2.position = Vec3.zero ∧ o2.covariance = Mat3.identity := by
  have h := mahalanobis_gating farModel "cup" Vec3.zero Mat3.identity
  have hfind : (findCorrespondence farModel.objects "cup" Vec3.zero Mat3.identity).1 = none := by
    norm_num [findCorrespondence, scanStep, mahalanobisSq, farModel, farObject, cupObject,
      Vec3.vecSubEq, Vec3.sub, Vec3.dot, Mat3.matAddEq, Mat3.add, Mat3.inv, Mat3.det,
      Mat3.adjugate, Mat3.smul, Mat3.mulVec, Mat3.identity, Vec3.zero]
  refine ⟨?_, ?_⟩
  · refine h.2.1 hfind farObject ?_ (Or.inr rfl)
    simp [farModel]
  · exact h.2.2 mapConfig [] ppNew rfl rfl rfl rfl hfind rfl

/-! ## Claim C2 -/

/-- Claim C2 counterexample: under the class hint `cup`, the class-less
    object sitting exactly at the observation position (squared Mahalanobis
    distance 0, well inside the gate) is not matched — the scan skips every
    object whose class differs from the non-empty hint, class-less objects
    included. -/
theorem classless_excluded_counterexample :
    unclassifiedObject.class_id = "" ∧
    mahalanobisSq unclassifiedObject Vec3.zero Mat3.identity = 0 ∧
    (findCorrespondence [unclassifiedObject] "cup" Vec3.zero Mat3.identity).1 = none := by
  refine ⟨rfl, ?_, ?_⟩
  · exact mahalanobisSq_eq_zero unclassifiedObject Vec3.zero Mat3.identity rfl
  · have hskip : scanStep "cup" Vec3.zero Mat3.identity (none, 1) unclassifiedObject =
        (none, 1) := by
      unfold scanStep
      rw [if_pos ⟨by decide, by decide⟩]
    simp only [findCorrespondence, List.foldl_cons, List.foldl_nil, hskip]

lemma scan_filter (cls : String) (pos : Vec3) (cov : Mat3) (hcls : ¬ cls = "") :
    ∀ (objs : List TrackedObject) (acc : Option TrackedObject × ℚ),
      List.foldl (scanStep cls pos cov) acc objs =
        List.foldl (scanStep cls pos cov) acc
          (objs.filter (fun x => x.class_id == cls)) := by
  intro objs
  induction objs with
  | nil =>
    intro acc
    rfl
  | cons a objs ih =>
    intro acc
    by_cases hc : a.class_id = cls
    · have hb : (a.class_id == cls) = true := beq_iff_eq.mpr hc
      rw [List.filter_cons]
      simp only [hb, if_true]
      rw [List.foldl_cons, List.foldl_cons, ih]
    · have hb : (a.class_id == cls) = false := by
        simp [hc]
      rw [List.filter_cons]
      simp only [hb, Bool.false_eq_true, if_false]
      rw [List.foldl_cons]
      have hskip : scanStep cls pos cov acc a = acc := by
        unfold scanStep
        rw [if_pos ⟨hcls, fun h => hc h.symm⟩]
      rw [hskip, ih]

/-- Claim C2 (amended): during association with a non-empty class hint, the
    scan considers exactly the objects whose class label equals the hint;
    every other object — class-less objects included — is excluded, so the
    scan coincides with the scan over the store filtered to that class. -/
theorem class_filter_exact_match (objs : List TrackedObject) (cls : String) (pos : Vec3)
    (cov : Mat3) (hcls : ¬ cls = "") :
    findCorrespondence objs cls pos cov =
      findCorrespondence (objs.filter (fun x => x.class_id == cls)) cls pos cov := by
  unfold findCorrespondence
  exact scan_filter cls pos cov hcls objs (none, 1)

/-- Witness for the amended C2 at a concrete input. -/
theorem class_filter_exact_match_witness :
    findCorrespondence [unclassifiedObject] "cup" Vec3.zero Mat3.identity =
      findCorrespondence
        (List.filter (fun x => x.class_id == "cup") [unclassifiedObject])
        "cup" Vec3.zero Mat3.identity :=
  class_filter_exact_match [unclassifiedObject] "cup" Vec3.zero Mat3.identity (by decide)

/-! ## Claim C3 -/

/-- Claim C3 counterexample: an observation carrying the explicit identifier
    `A` of an existing object (support 5, at the origin) does not update that
    object: the cycle returns the store unchanged (the store's add-by-id
    errors on the existing identifier), so `A` keeps support 5 — there is no
    direct lookup that would fuse the observation into `A`. -/
theorem explicit_id_no_update_counterexample :
    ppNamedA.object_id = "A" ∧ ppNamedA.support = 1 ∧
    associateAndFuse mapConfig [] ppNamedA cupModel = ⟨cupModel, []⟩ ∧
    cupModel.getObject "A" = some cupObject ∧ cupObject.support = 5 :=
  ⟨rfl, rfl, rfl, rfl, rfl⟩

/-- Claim C3 (amended): for an observation with a non-empty explicit object
    identifier the association scan is skipped, and the observation goes to
    the store's add-by-class/id with that identifier — not to a lookup: if
    the identifier already exists the cycle has no effect (the add errors),
    and if it does not exist a new object with that identifier is appended
    carrying the observation's position and covariance. -/
theorem explicit_id_skips_association (cfg : Config) (vs : List VerifyResponse)
    (pp : ProcessedPercept) (m : ObjectModel) (hid : ¬ pp.object_id = "") :
    (∀ o, m.getObject pp.object_id = some o → associateAndFuse cfg vs pp m = ⟨m, []⟩) ∧
    (m.getObject pp.object_id = none →
      ∃ o2, (associateAndFuse cfg vs pp m).model.objects = m.objects ++ [o2] ∧
        o2.object_id = pp.object_id ∧ o2.position = pp.position ∧
        o2.covariance = pp.covariance) := by
  constructor
  · intro o ho
    have hadd : m.add pp.class_id pp.object_id = none := by
      simp only [ObjectModel.add]
      rw [if_neg hid, ho]
    unfold associateAndFuse
    rw [if_neg hid, hadd]
  · intro ho
    obtain ⟨o2, heq, ho2id, hpos, hcov, _, _⟩ :=
      associateAndFuse_creates cfg vs pp m pp.object_id (by rw [if_neg hid])
        (by rw [if_neg hid]) ho
    refine ⟨o2, ?_, ho2id, hpos, hcov⟩
    rw [heq]

/-- Witness for the amended C3: the identifier `A` does not exist in the
    far-object store, so the explicit-id observation appends a new object
    with that identifier. -/
theorem explicit_id_skips_association_witness :
    ∃ o2, (associateAndFuse mapConfig [] ppNamedA farModel).model.objects =
        farModel.objects ++ [o2] ∧ o2.object_id = ppNamedA.object_id ∧
        o2.position = ppNamedA.position ∧ o2.covariance = ppNamedA.covariance :=
  (explicit_id_skips_association mapConfig [] ppNamedA farModel (by decide)).2 rfl

/-! ## The pre-lock pipeline in the simple configuration -/

/-- The covariance produced by lines 135–149 — the percept covariance (or the
    synthesized default) rotated by the bearing-direction rotation. -/
def preparedCovariance (cfg : Config) (eulerQuat : ℚ → ℚ → Quat) (percept : PosePercept) :
    Mat3 :=
  let p0 := percept.position
  let cov0 := if percept.covariance = Mat3.zero then synthCovariance cfg (Vec3.normSq p0)
              else percept.covariance
  let rotDir := Quat.toMatrix (eulerQuat (p0.y / p0.x) (-p0.z / p0.x))
  rotDir * cov0 * rotDir.transpose

lemma projectPercept_simple (cfg : Config) (eulerQuat : ℚ → ℚ → Quat) (unitOf : Vec3 → Vec3)
    (ranging : Option ℚ) (tfl : Option StampedTransform) (percept : PosePercept)
    (hproj : cfg.project_objects = false)
    (hframe : percept.header.frame_id = cfg.frame_id)
    (hmin : cfg.min_height ≤ percept.position.z)
    (hmax : percept.position.z ≤ cfg.max_height)
    (hoid : percept.info.object_id = "")
    (hcls : ¬ percept.info.class_id = "")
    (hsup : ¬ percept.info.class_support = 0) :
    projectPercept cfg eulerQuat unitOf ranging tfl percept =
      some { position := percept.position, rotation := percept.orientation,
             covariance := preparedCovariance cfg eulerQuat percept,
             support := percept.info.class_support,
             class_id := percept.info.class_id, object_id := percept.info.object_id,
             stamp := percept.header.stamp } := by
  unfold projectPercept
  rw [hproj]
  simp only [Bool.false_eq_true, if_false]
  rw [if_neg (fun h : ¬ cfg.frame_id = "" ∧ ¬ percept.header.frame_id = cfg.frame_id =>
    h.2 hframe)]
  simp [preparedCovariance, StampedTransform.identity, Vec3.zero, sub_zero,
    not_lt.mpr hmin, not_lt.mpr hmax, hoid, hcls, hsup]

/-! ## Claim C4 -/

/-- Claim C4: an observation that associates to an object in the locked/fixed
    (negative) state is dropped with no effect at all — the cycle returns the
    store unchanged (so the object's position, covariance, support, state,
    orientation and header are untouched and no object is created), nothing
    is published, and iterating any number of such matching observations
    still leaves the store unchanged. -/
theorem locked_state_immutable (cfg : Config) (eulerQuat : ℚ → ℚ → Quat)
    (unitOf : Vec3 → Vec3) (ranging : Option ℚ) (tfl : Option StampedTransform)
    (vs : List VerifyResponse) (percept : PosePercept) (m : ObjectModel)
    (pp : ProcessedPercept) (o : TrackedObject) (d : ℚ)
    (hpp : projectPercept cfg eulerQuat unitOf ranging tfl percept = some pp)
    (hid : pp.object_id = "")
    (hfind : findCorrespondence m.objects pp.class_id pp.position pp.covariance = (some o, d))
    (hlock : o.state < 0) :
    posePerceptCb cfg eulerQuat unitOf ranging tfl vs percept m = ⟨m, []⟩ ∧
    ∀ n : ℕ,
      (fun mm => (posePerceptCb cfg eulerQuat unitOf ranging tfl vs percept mm).model)^[n] m
        = m := by
  have h1 : (findCorrespondence m.objects pp.class_id pp.position pp.covariance).1 = some o := by
    rw [hfind]
  have hAF : associateAndFuse cfg vs pp m = ⟨m, []⟩ := by
    simp only [associateAndFuse, hid, h1, hlock, eq_self_iff_true, if_true]
  have hone : posePerceptCb cfg eulerQuat unitOf ranging tfl vs percept m = ⟨m, []⟩ := by
    unfold posePerceptCb
    rw [hpp]
    exact hAF
  refine ⟨hone, ?_⟩
  intro n
  apply Function.iterate_fixed
  show (posePerceptCb cfg eulerQuat unitOf ranging tfl vs percept m).model = m
  rw [hone]

/-- The processed form of `lockedPercept` in the simple configuration. -/
def lockedPP : ProcessedPercept :=
  { position := lockedPercept.position, rotation := lockedPercept.orientation,
    covariance := preparedCovariance mapConfig (fun _ _ => Quat.one) lockedPercept,
    support := lockedPercept.info.class_support,
    class_id := lockedPercept.info.class_id, object_id := lockedPercept.info.object_id,
    stamp := lockedPercept.header.stamp }

/-- Witness for C4: the locked object at the origin absorbs matching origin
    observations with no effect, once and iterated three times. -/
theorem locked_state_immutable_witness :
    posePerceptCb mapConfig (fun _ _ => Quat.one) (fun v => v) none none [] lockedPercept
      lockedModel = ⟨lockedModel, []⟩ ∧
    (fun mm => (posePerceptCb mapConfig (fun _ _ => Quat.one) (fun v => v) none none []
      lockedPercept mm).model)^[3] lockedModel = lockedModel := by
  have hpp : projectPercept mapConfig (fun _ _ => Quat.one) (fun v => v) none none
      lockedPercept = some lockedPP :=
    projectPercept_simple mapConfig (fun _ _ => Quat.one) (fun v => v) none none lockedPercept
      rfl rfl (by norm_num [mapConfig, lockedPercept, cupPercept, Vec3.zero])
      (by norm_num [mapConfig, lockedPercept, cupPercept, Vec3.zero]) rfl (by decide)
      (by norm_num [lockedPercept, cupPercept])
  have hmaha : mahalanobisSq lockedObject Vec3.zero lockedPP.covariance = 0 :=
    mahalanobisSq_eq_zero lockedObject Vec3.zero lockedPP.covariance rfl
  have hfind : findCorrespondence lockedModel.objects lockedPP.class_id lockedPP.position
      lockedPP.covariance = (some lockedObject, 0) := by
    show List.foldl (scanStep "cup" Vec3.zero lockedPP.covariance) (none, 1) [lockedObject] =
      (some lockedObject, 0)
    rw [List.foldl_cons, List.foldl_nil]
    unfold scanStep
    rw [if_neg (fun h : ¬ ("cup" : String) = "" ∧ ¬ ("cup" : String) = lockedObject.class_id =>
      h.2 rfl)]
    simp only [hmaha]
    rw [if_pos (by norm_num)]
  have h := locked_state_immutable mapConfig (fun _ _ => Quat.one) (fun v => v) none none []
    lockedPercept lockedModel lockedPP lockedObject 0 hpp rfl hfind (by decide)
  exact ⟨h.1, h.2 3⟩

/-! ## Claim C5 -/

/-- Claim C5 counterexample: for an observation at range 1/2 with the zero
    covariance block, the synthesized lateral variance is
    `max(range², 1) * angle_variance = 1`, not `range² * angle_variance
    = 1/4` as the claim states. -/
theorem default_covariance_counterexample :
    Vec3.normSq ⟨1 / 2, 0, 0⟩ = 1 / 4 ∧
    (synthCovariance mapConfig (Vec3.normSq ⟨1 / 2, 0, 0⟩)).a11 = 1 ∧
    Vec3.normSq ⟨1 / 2, 0, 0⟩ * mapConfig.angle_variance = 1 / 4 ∧
    (1 : ℚ) ≠ 1 / 4 := by
  have hnorm : Vec3.normSq ⟨1 / 2, 0, 0⟩ = 1 / 4 := by
    norm_num [Vec3.normSq]
  have hmax : max ((1 : ℚ) / 4) 1 = 1 := max_eq_right (by norm_num)
  refine ⟨hnorm, ?_, ?_, by norm_num⟩
  · show max (Vec3.normSq ⟨1 / 2, 0, 0⟩) 1 * mapConfig.angle_variance = 1
    rw [hnorm, hmax]
    norm_num [mapConfig]
  · rw [hnorm]
    norm_num [mapConfig]

/-- Claim C5 (amended): for a pose observation whose 3x3 positional
    covariance block is the zero matrix, the synthesized default covariance
    is diagonal with the configured distance variance on the bearing (radial)
    axis and `max(range², 1)` times the configured angular-variance constant
    on the two orthogonal axes (so the claimed `range² * angle_variance` holds
    exactly when the range is at least 1), and the pre-lock pipeline carries
    exactly this matrix, rotated by the bearing rotation, into association. -/
theorem default_covariance_amended (cfg : Config) (d2 : ℚ) (eulerQuat : ℚ → ℚ → Quat)
    (unitOf : Vec3 → Vec3) (percept : PosePercept) (pp : ProcessedPercept)
    (hzero : percept.covariance = Mat3.zero)
    (hproj : cfg.project_objects = false)
    (hpp : projectPercept cfg eulerQuat unitOf none none percept = some pp) :
    (synthCovariance cfg d2).a00 = cfg.distance_variance ∧
    (synthCovariance cfg d2).a11 = max d2 1 * cfg.angle_variance ∧
    (synthCovariance cfg d2).a22 = max d2 1 * cfg.angle_variance ∧
    (1 ≤ d2 → (synthCovariance cfg d2).a11 = d2 * cfg.angle_variance) ∧
    pp.covariance =
      Quat.toMatrix (eulerQuat (percept.position.y / percept.position.x)
          (-percept.position.z / percept.position.x)) *
        synthCovariance cfg (Vec3.normSq percept.position) *
        (Quat.toMatrix (eulerQuat (percept.position.y / percept.position.x)
          (-percept.position.z / percept.position.x))).transpose := by
  refine ⟨rfl, rfl, rfl, ?_, ?_⟩
  · intro hd2
    show max d2 1 * cfg.angle_variance = d2 * cfg.angle_variance
    rw [max_eq_left hd2]
  · simp only [projectPercept, hproj, Bool.false_eq_true, if_false, hzero,
      eq_self_iff_true, if_true] at hpp
    by_cases hc : ¬ cfg.frame_id = "" ∧ ¬ percept.header.frame_id = cfg.frame_id
    · simp only [if_pos hc] at hpp
      exact absurd hpp (by simp)
    · simp only [if_neg hc] at hpp
      split at hpp
      · exact absurd hpp (by simp)
      · split at hpp
        all_goals try split at hpp
        all_goals try split at hpp
        all_goals
          first
          | (rw [Option.some_inj] at hpp
             rw [← hpp])
          | exact absurd hpp (by simp)

/-- The processed form of `zeroCovPercept` in the simple configuration. -/
def zeroCovPP : ProcessedPercept :=
  { position := zeroCovPercept.position, rotation := zeroCovPercept.orientation,
    covariance := preparedCovariance mapConfig (fun _ _ => Quat.one) zeroCovPercept,
    support := zeroCovPercept.info.class_support,
    class_id := zeroCovPercept.info.class_id, object_id := zeroCovPercept.info.object_id,
    stamp := zeroCovPercept.header.stamp }

/-- Witness for the amended C5 at squared range 2 and at the concrete
    zero-covariance percept. -/
theorem default_covariance_amended_witness :
    (synthCovariance mapConfig 2).a11 = max 2 1 * mapConfig.angle_variance ∧
    ((1 : ℚ) ≤ 2 → (synthCovariance mapConfig 2).a11 = 2 * mapConfig.angle_variance) ∧
    zeroCovPP.covariance = Quat.toMatrix Quat.one *
      synthCovariance mapConfig (Vec3.normSq zeroCovPercept.position) *
      (Quat.toMatrix Quat.one).transpose := by
  have hpp : projectPercept mapConfig (fun _ _ => Quat.one) (fun v => v) none none
      zeroCovPercept = some zeroCovPP :=
    projectPercept_simple mapConfig (fun _ _ => Quat.one) (fun v => v) none none zeroCovPercept
      rfl rfl (by norm_num [mapConfig, zeroCovPercept, cupPercept, Vec3.zero])
      (by norm_num [mapConfig, zeroCovPercept, cupPercept, Vec3.zero]) rfl (by decide)
      (by norm_num [zeroCovPercept, cupPercept])
  have h := default_covariance_amended mapConfig 2 (fun _ _ => Quat.one) (fun v => v)
    zeroCovPercept zeroCovPP rfl rfl hpp
  exact ⟨h.2.1, h.2.2.2.1, h.2.2.2.2⟩

/-! ## Claim C6 -/

/-- The single-object invariant maintained by repeated identical
    observations: the store holds exactly one object, at the observation's
    position, of its class, pending, with support accumulated `j` times. -/
def singleTracked (pp : ProcessedPercept) (j : ℕ) (mm : ObjectModel) : Prop :=
  ∃ o, mm = ⟨[o], 1⟩ ∧ o.position = pp.position ∧ o.class_id = pp.class_id ∧
    o.state = 0 ∧ o.support = (j : ℚ) * pp.support

lemma fuse_first (cfg : Config) (pp : ProcessedPercept) (hid : pp.object_id = "") :
    singleTracked pp 1 (associateAndFuse cfg [] pp ObjectModel.empty).model := by
  obtain ⟨o2, heq, hido, hpos, hcov, hcls2, hrest⟩ :=
    associateAndFuse_creates cfg [] pp ObjectModel.empty (autoId 0)
      (by rw [hid, if_pos rfl]; rfl) (by rw [hid, if_pos rfl]; rfl) rfl
  obtain ⟨hsup, hstate⟩ := hrest rfl
  refine ⟨o2, ?_, hpos, hcls2, hstate, ?_⟩
  · rw [heq]
    rfl
  · rw [hsup]
    norm_num

lemma fuse_again (cfg : Config) (pp : ProcessedPercept) (o : TrackedObject) (k : ℕ)
    (hid : pp.object_id = "")
    (hsup : 0 < pp.support)
    (hocls : o.class_id = pp.class_id)
    (hopos : o.position = pp.position)
    (hostate : o.state = 0) :
    ∃ o2, (associateAndFuse cfg [] pp ⟨[o], k⟩).model = ⟨[o2], k⟩ ∧
      o2.position = pp.position ∧ o2.class_id = pp.class_id ∧ o2.state = 0 ∧
      o2.support = o.support + pp.support := by
  have hmaha := mahalanobisSq_eq_zero o pp.position pp.covariance hopos
  have hfind : findCorrespondence [o] pp.class_id pp.position pp.covariance = (some o, 0) := by
    unfold findCorrespondence
    rw [List.foldl_cons, List.foldl_nil]
    unfold scanStep
    rw [if_neg (fun h : ¬ pp.class_id = "" ∧ ¬ pp.class_id = o.class_id => h.2 hocls.symm)]
    simp only [hmaha]
    rw [if_pos (by norm_num)]
  have h1 : (findCorrespondence [o] pp.class_id pp.position pp.covariance).1 = some o := by
    rw [hfind]
  have hnotlock : ¬ o.state < 0 := by
    rw [hostate]
    decide
  have hup := update_at_own_position o pp.covariance pp.support
  rw [hopos] at hup
  set G := applyVerifications []
    { o.update pp.position pp.covariance pp.support with
        orientation := pp.rotation, header := ⟨pp.stamp, cfg.frame_id⟩ } with hG
  have hGid : o.object_id = G.object_id := by
    rw [hG]
    exact hup.2.2.2.2.symm
  have heq : associateAndFuse cfg [] pp ⟨[o], k⟩ =
      ⟨ObjectModel.setObject ⟨[o], k⟩ G,
       [Pub.objectUpdate G, Pub.modelSnapshot (ObjectModel.setObject ⟨[o], k⟩ G).objects]⟩ := by
    simp only [associateAndFuse, hid, h1, hnotlock, hsup, eq_self_iff_true, if_true, if_false]
  have hset : ObjectModel.setObject ⟨[o], k⟩ G = ⟨[G], k⟩ := by
    simp only [ObjectModel.setObject, List.map_cons, List.map_nil, ObjectModel.mk.injEq,
      and_true]
    rw [if_pos hGid]
  refine ⟨G, ?_, ?_, ?_, ?_, ?_⟩
  · rw [heq, hset]
  · rw [hG]
    exact hup.1
  · rw [hG]
    exact hup.2.2.2.1.trans hocls
  · rw [hG]
    exact hup.2.2.1.trans hostate
  · rw [hG]
    exact hup.2.1

lemma singleTracked_step (cfg : Config) (pp : ProcessedPercept) (j : ℕ) (mm : ObjectModel)
    (hid : pp.object_id = "") (hsup : 0 < pp.support)
    (hinv : singleTracked pp j mm) :
    singleTracked pp (j + 1) (associateAndFuse cfg [] pp mm).model := by
  obtain ⟨o, hm, hpos, hcls, hstate, hsupo⟩ := hinv
  subst hm
  obtain ⟨o2, heq, hpos2, hcls2, hstate2, hsup2⟩ :=
    fuse_again cfg pp o 1 hid hsup hcls hpos hstate
  refine ⟨o2, heq, hpos2, hcls2, hstate2, ?_⟩
  rw [hsup2, hsupo]
  push_cast
  ring

/-- Claim C6: feeding the same observation (identical position, covariance,
    class hint, positive support, no object id) `N ≥ 1` times into an
    initially empty model yields exactly one tracked object: the first
    observation creates it and each later one associates within the gate and
    fuses — the single object sits at the observation position, carries the
    observation class, and has accumulated support `N` times the
    observation's class support. -/
theorem repeated_observation_single_object (cfg : Config) (eulerQuat : ℚ → ℚ → Quat)
    (unitOf : Vec3 → Vec3) (percept : PosePercept) (N : ℕ)
    (hproj : cfg.project_objects = false)
    (hframe : percept.header.frame_id = cfg.frame_id)
    (hmin : cfg.min_height ≤ percept.position.z)
    (hmax : percept.position.z ≤ cfg.max_height)
    (hoid : percept.info.object_id = "")
    (hcls : ¬ percept.info.class_id = "")
    (hsup : 0 < percept.info.class_support)
    (hN : 1 ≤ N) :
    ∃ o, (fun mm => (posePerceptCb cfg eulerQuat unitOf none none [] percept mm).model)^[N]
        ObjectModel.empty = ⟨[o], 1⟩ ∧
      o.position = percept.position ∧ o.class_id = percept.info.class_id ∧
      o.support = (N : ℚ) * percept.info.class_support := by
  have hppS : projectPercept cfg eulerQuat unitOf none none percept =
      some { position := percept.position, rotation := percept.orientation,
             covariance := preparedCovariance cfg eulerQuat percept,
             support := percept.info.class_support,
             class_id := percept.info.class_id, object_id := percept.info.object_id,
             stamp := percept.header.stamp } :=
    projectPercept_simple cfg eulerQuat unitOf none none percept hproj hframe hmin hmax hoid
      hcls (by exact fun h => absurd h (ne_of_gt hsup))
  set ppS : ProcessedPercept :=
    { position := percept.position, rotation := percept.orientation,
      covariance := preparedCovariance cfg eulerQuat percept,
      support := percept.info.class_support,
      class_id := percept.info.class_id, object_id := percept.info.object_id,
      stamp := percept.header.stamp } with hppSdef
  have hstep : ∀ mm, posePerceptCb cfg eulerQuat unitOf none none [] percept mm =
      associateAndFuse cfg [] ppS mm := by
    intro mm
    unfold posePerceptCb
    rw [hppS]
  have hid : ppS.object_id = "" := hoid
  have hsupS : 0 < ppS.support := hsup
  have haux : ∀ (n j : ℕ) (mm : ObjectModel), singleTracked ppS j mm →
      singleTracked ppS (j + n)
        ((fun mm => (posePerceptCb cfg eulerQuat unitOf none none [] percept mm).model)^[n]
          mm) := by
    intro n
    induction n with
    | zero =>
      intro j mm h
      simpa using h
    | succ n ih =>
      intro j mm h
      rw [Function.iterate_succ_apply]
      have h2 : singleTracked ppS (j + 1)
          ((fun mm => (posePerceptCb cfg eulerQuat unitOf none none [] percept mm).model)
            mm) := by
        show singleTracked ppS (j + 1)
          (posePerceptCb cfg eulerQuat unitOf none none [] percept mm).model
        rw [hstep]
        exact singleTracked_step cfg ppS j mm hid hsupS h
      have h3 := ih (j + 1) _ h2
      have harith : j + 1 + n = j + (n + 1) := by omega
      rw [harith] at h3
      exact h3
  obtain ⟨n, rfl⟩ : ∃ n, N = n + 1 := ⟨N - 1, by omega⟩
  rw [Function.iterate_succ_apply]
  have hbase : singleTracked ppS 1
      ((fun mm => (posePerceptCb cfg eulerQuat unitOf none none [] percept mm).model)
        ObjectModel.empty) := by
    show singleTracked ppS 1
      (posePerceptCb cfg eulerQuat unitOf none none [] percept ObjectModel.empty).model
    rw [hstep]
    exact fuse_first cfg ppS hid
  have hfin := haux n 1 _ hbase
  have harith : 1 + n = n + 1 := by omega
  rw [harith] at hfin
  obtain ⟨o, hm, hpos, hclso, _, hsupo⟩ := hfin
  exact ⟨o, hm, hpos, hclso, hsupo⟩

/-- Witness for C6: three identical `cup` observations into the empty store
    leave exactly one object with threefold support. -/
theorem repeated_observation_single_object_witness :
    ∃ o, (fun mm => (posePerceptCb mapConfig (fun _ _ => Quat.one) (fun v => v) none none []
        cupPercept mm).model)^[3] ObjectModel.empty = ⟨[o], 1⟩ ∧
      o.position = cupPercept.position ∧ o.class_id = cupPercept.info.class_id ∧
      o.support = (3 : ℚ) * cupPercept.info.class_support := by
  have h := repeated_observation_single_object mapConfig (fun _ _ => Quat.one) (fun v => v)
    cupPercept 3 rfl rfl (by norm_num [mapConfig, cupPercept])
    (by norm_num [mapConfig, cupPercept]) rfl (by decide)
    (by norm_num [cupPercept]) (by norm_num)
  simpa using h

/-! ## Claim C7 -/

lemma associateAndFuse_publishes (cfg : Config) (vs : List VerifyResponse)
    (pp : ProcessedPercept) (m : ObjectModel) :
    associateAndFuse cfg vs pp m = ⟨m, []⟩ ∨
    Pub.modelSnapshot (associateAndFuse cfg vs pp m).model.objects ∈
      (associateAndFuse cfg vs pp m).pubs := by
  simp only [associateAndFuse]
  rcases hfound : (if pp.object_id = "" then
      (findCorrespondence m.objects pp.class_id pp.position pp.covariance).1 else none) with
    _ | o
  · rcases hadd : m.add pp.class_id pp.object_id with _ | fm
    · left
      rfl
    · right
      simp
  · by_cases hlock : o.state < 0
    · left
      simp only [hlock, if_true]
    · right
      simp only [hlock, if_false]
      simp

/-- Claim C7 counterexample: the reset command empties a non-empty store and
    publishes nothing at all — the full model snapshot is not broadcast after
    this mutation. -/
theorem reset_unpublished_counterexample :
    cupModel.objects ≠ [] ∧
    (sysCommandCb "reset" cupModel).model.objects = [] ∧
    (sysCommandCb "reset" cupModel).pubs = [] := by
  refine ⟨?_, rfl, rfl⟩
  simp [cupModel]

/-- Claim C7 (amended): observation fusion, explicit state change and
    explicit create-or-update each either leave the store untouched with no
    publication (a dropped/failed cycle) or broadcast the full model snapshot
    of the resulting store; the reset command, however, empties the store
    without broadcasting anything. -/
theorem publish_after_mutation_amended :
    (∀ (cfg : Config) (eulerQuat : ℚ → ℚ → Quat) (unitOf : Vec3 → Vec3)
        (ranging : Option ℚ) (tfl : Option StampedTransform) (vs : List VerifyResponse)
        (percept : PosePercept) (m : ObjectModel),
        posePerceptCb cfg eulerQuat unitOf ranging tfl vs percept m = ⟨m, []⟩ ∨
        Pub.modelSnapshot
            (posePerceptCb cfg eulerQuat unitOf ranging tfl vs percept m).model.objects ∈
          (posePerceptCb cfg eulerQuat unitOf ranging tfl vs percept m).pubs) ∧
    (∀ (oid : String) (st : Int) (m : ObjectModel),
        setObjectStateCb oid st m = ⟨false, none, m, []⟩ ∨
        Pub.modelSnapshot (setObjectStateCb oid st m).model.objects ∈
          (setObjectStateCb oid st m).pubs) ∧
    (∀ (cfg : Config) (se : Bool) (ranging : Option ℚ) (tfl : Option StampedTransform)
        (unitOf : Vec3 → Vec3) (now : ℚ) (req : AddObjectRequest) (m : ObjectModel),
        addObjectCb cfg se ranging tfl unitOf now req m = ⟨false, none, m, []⟩ ∨
        Pub.modelSnapshot (addObjectCb cfg se ranging tfl unitOf now req m).model.objects ∈
          (addObjectCb cfg se ranging tfl unitOf now req m).pubs) ∧
    (∀ m : ObjectModel, sysCommandCb "reset" m = ⟨ObjectModel.empty, []⟩) := by
  refine ⟨?_, ?_, ?_, ?_⟩
  · intro cfg eulerQuat unitOf ranging tfl vs percept m
    rcases hpp : projectPercept cfg eulerQuat unitOf ranging tfl percept with _ | pp
    · left
      unfold posePerceptCb
      rw [hpp]
    · have hE : posePerceptCb cfg eulerQuat unitOf ranging tfl vs percept m =
          associateAndFuse cfg vs pp m := by
        unfold posePerceptCb
        rw [hpp]
      rw [hE]
      exact associateAndFuse_publishes cfg vs pp m
  · intro oid st m
    rcases hget : m.getObject oid with _ | o
    · left
      unfold setObjectStateCb
      rw [hget]
    · right
      unfold setObjectStateCb
      rw [hget]
      simp
  · intro cfg se ranging tfl unitOf now req m
    simp only [addObjectCb]
    split
    all_goals try split
    all_goals try split
    all_goals first
      | (left; rfl)
      | (right; simp)
  · intro m
    rfl

/-! ## Claim C8 -/

/-- Claim C8: an explicit create-or-update whose obstacle-projection step or
    global-frame transform fails returns an explicit failure: success is
    false, no object is returned, the store is exactly the input store (no
    object created, no field of an existing object changed) and nothing is
    published. -/
theorem add_object_failure_no_mutation (cfg : Config) (se : Bool) (ranging : Option ℚ)
    (tfl : Option StampedTransform) (unitOf : Vec3 → Vec3) (now : ℚ)
    (req : AddObjectRequest) (m : ObjectModel)
    (hfail : (req.map_to_next_obstacle = true ∧
        mapToNextObstacle se ranging unitOf req.position = none) ∨ tfl = none) :
    addObjectCb cfg se ranging tfl unitOf now req m = ⟨false, none, m, []⟩ := by
  rcases hfail with ⟨hflag, hmap⟩ | htf
  · simp only [addObjectCb, hflag, hmap, eq_self_iff_true, if_true]
  · simp only [addObjectCb, htf, transformPose]
    split
    all_goals rfl

/-- Witness for C8: projection requested while the ranging service does not
    exist — the operation fails and the store is untouched. -/
theorem add_object_failure_no_mutation_witness :
    addObjectCb mapConfig false none none (fun v => v) 0 projectedRequest cupModel =
      ⟨false, none, cupModel, []⟩ :=
  add_object_failure_no_mutation mapConfig false none none (fun v => v) 0 projectedRequest
    cupModel (Or.inl ⟨rfl, rfl⟩)

/-! ## Claim C9 -/

/-- Claim C9 counterexample: for the ray with zero forward component the
    adapter performs the orientation division with divisor zero — the
    division is not guarded, and the float source produces NaN/infinity on
    this input. -/
theorem direction_division_counterexample : dirQuatArgs ⟨0, 1, 0⟩ = none := rfl

/-- Claim C9 (amended): the division deriving the synthetic orientation is
    unconditional, not guarded: exactly the rays with zero forward component
    make it divide by zero (yielding NaN/infinity in the float source, the
    undefined marker here), and every other ray yields the Euler arguments
    `y/x` and `-z/x`. -/
theorem direction_division_unguarded (p : Vec3) :
    (p.x = 0 → dirQuatArgs p = none) ∧
    (¬ p.x = 0 → dirQuatArgs p = some (p.y / p.x, -p.z / p.x)) := by
  constructor
  · intro h
    unfold dirQuatArgs
    rw [if_pos h]
  · intro h
    unfold dirQuatArgs
    rw [if_neg h]

/-- Witness for the amended C9 at concrete rays. -/
theorem direction_division_unguarded_witness :
    dirQuatArgs ⟨0, 5, 2⟩ = none ∧ dirQuatArgs ⟨1, 2, 3⟩ = some (2, -3) := by
  constructor
  · exact (direction_division_unguarded ⟨0, 5, 2⟩).1 rfl
  · have h := (direction_division_unguarded ⟨1, 2, 3⟩).2 (by norm_num)
    rw [h]
    norm_num

/-! ## Claim C10 -/

lemma cache_lookup_stable (ps : List (String × CameraInfo)) :
    ∀ (c : List (String × CameraInfo)) (f : String),
      (c.lookup f).isSome = true →
      (ps.foldl (fun cc q => cacheInsert cc q.1 q.2) c).lookup f = c.lookup f := by
  induction ps with
  | nil =>
    intro c f h
    rfl
  | cons q ps ih =>
    intro c f h
    rw [List.foldl_cons]
    by_cases hq : (c.lookup q.1).isSome = true
    · have h2 : cacheInsert c q.1 q.2 = c := by
        unfold cacheInsert
        rw [if_pos hq]
      rw [h2, ih c f h]
    · have h2 : cacheInsert c q.1 q.2 = (q.1, q.2) :: c := by
        unfold cacheInsert
        rw [if_neg hq]
      have hne : (f == q.1) = false := by
        by_contra hb
        have hbeq : f = q.1 := beq_iff_eq.mp (Bool.not_eq_false _ |>.mp hb)
        rw [hbeq] at h
        exact hq h
      have hlk : ((q.1, q.2) :: c).lookup f = c.lookup f := by
        simp [List.lookup, hne]
      have hsome2 : (((q.1, q.2) :: c).lookup f).isSome = true := by
        rw [hlk]
        exact h
      rw [h2, ih _ f hsome2, hlk]

lemma cache_lookup_of_none (ps : List (String × CameraInfo)) :
    ∀ (c : List (String × CameraInfo)) (f : String),
      c.lookup f = none →
      (ps.foldl (fun cc q => cacheInsert cc q.1 q.2) c).lookup f =
        (ps.find? (fun r => r.1 == f)).map Prod.snd := by
  induction ps with
  | nil =>
    intro c f h
    simpa using h
  | cons q ps ih =>
    intro c f h
    rw [List.foldl_cons]
    by_cases hqf : (q.1 == f) = true
    · have hf : f = q.1 := (beq_iff_eq.mp hqf).symm
      have hq : ¬ (c.lookup q.1).isSome = true := by
        rw [← hf, h]
        simp
      have h2 : cacheInsert c q.1 q.2 = (q.1, q.2) :: c := by
        unfold cacheInsert
        rw [if_neg hq]
      have hlk : ((q.1, q.2) :: c).lookup f = some q.2 := by
        simp [List.lookup, hf]
      have hfq : List.find? (fun r => r.1 == f) (q :: ps) = some q :=
        List.find?_cons_of_pos ps hqf
      rw [h2, cache_lookup_stable ps _ f (by rw [hlk]; rfl), hlk, hfq]
      rfl
    · have hne : (f == q.1) = false := by
        by_contra hb
        have hbeq : f = q.1 := beq_iff_eq.mp (Bool.not_eq_false _ |>.mp hb)
        rw [hbeq] at hqf
        simp at hqf
      have hfq : List.find? (fun r => r.1 == f) (q :: ps) =
          List.find? (fun r => r.1 == f) ps :=
        List.find?_cons_of_neg ps (by simp [hqf])
      rw [hfq]
      by_cases hq : (c.lookup q.1).isSome = true
      · have h2 : cacheInsert c q.1 q.2 = c := by
          unfold cacheInsert
          rw [if_pos hq]
        rw [h2, ih c f h]
      · have h2 : cacheInsert c q.1 q.2 = (q.1, q.2) :: c := by
          unfold cacheInsert
          rw [if_neg hq]
        have hlk : ((q.1, q.2) :: c).lookup f = none := by
          simp only [List.lookup, hne]
          exact h
        rw [h2, ih _ f hlk]

/-- Claim C10: the camera model used for a bearing-only percept is built
    from the `camera_info` of the first percept ever received with that frame
    id: if some earlier percept of the sequence carried the frame, that first
    percept's calibration is used and the current (and every later) percept's
    `camera_info` is ignored; only when the frame was never seen before is
    the current percept's `camera_info` used (and cached). -/
theorem camera_model_first_write_wins (ps : List (String × CameraInfo)) (f : String)
    (i : CameraInfo) :
    (∀ q, ps.find? (fun r => r.1 == f) = some q →
        usedCameraModel (processCameraInfos ps) f i = q.2) ∧
    (ps.find? (fun r => r.1 == f) = none →
        usedCameraModel (processCameraInfos ps) f i = i) := by
  have hbase : (processCameraInfos ps).lookup f =
      (ps.find? (fun r => r.1 == f)).map Prod.snd :=
    cache_lookup_of_none ps [] f rfl
  constructor
  · intro q hq
    rw [hq] at hbase
    unfold usedCameraModel
    have h2 : cacheInsert (processCameraInfos ps) f i = processCameraInfos ps := by
      unfold cacheInsert
      rw [if_pos (by rw [hbase]; rfl)]
    rw [h2, hbase]
    rfl
  · intro hq
    rw [hq] at hbase
    unfold usedCameraModel
    have h2 : cacheInsert (processCameraInfos ps) f i = (f, i) :: processCameraInfos ps := by
      unfold cacheInsert
      rw [if_neg (by rw [hbase]; simp)]
    rw [h2]
    simp [List.lookup]

/-- A camera calibration payload. -/
def camInfo7 : CameraInfo := ⟨7⟩

/-- Another camera calibration payload. -/
def camInfo9 : CameraInfo := ⟨9⟩

/-- A third camera calibration payload. -/
def camInfo5 : CameraInfo := ⟨5⟩

/-- Witness for C10: after two percepts on frame `cam`, a third percept with
    fresh calibration still uses the first percept's calibration. -/
theorem camera_model_first_write_wins_witness :
    usedCameraModel (processCameraInfos [("cam", camInfo7), ("cam", camInfo9)]) "cam"
      camInfo5 = camInfo7 :=
  (camera_model_first_write_wins [("cam", camInfo7), ("cam", camInfo9)] "cam" camInfo5).1
    ("cam", camInfo7) rfl

end WorldModel
